import Mathlib

/-!
Shallow embedding of the AI nutrition assistant (`src/script.js`).

The script keeps two pieces of mutable state, `dailyLog` (an array of
logged meals) and `calorieGoal` (a number, initially 2000), and exposes
event handlers that mutate them.  JS numbers appearing in the nutrition
data are modelled as rationals; JS object fields that may be absent,
`undefined` or otherwise falsy are modelled with `Option`.  The retried
network call of `getNutritionalInfo` is modelled by abstracting `fetch`
as a function from the attempt number to the response it returns, and
counting the fetches performed and the `setTimeout` backoff delays.
-/

namespace NutritionApp

/-- Summary block of a parsed analysis (`meal_summary` in the JSON).
Each numeric field is `Option ℚ`: `none` models a field that is absent,
`undefined` or NaN, all of which are falsy in the `|| 0` coercion used by
`updateDashboard`. -/
structure MealSummary where
  total_calories : Option ℚ
  total_protein_g : Option ℚ
  total_carbs_g : Option ℚ
  total_fat_g : Option ℚ
deriving Repr, DecidableEq

/-- One entry of the `food_items` array of a parsed analysis. -/
structure FoodItem where
  name : String
  quantity : String
  calories : Option ℚ
  protein_g : Option ℚ
  carbs_g : Option ℚ
  fat_g : Option ℚ
deriving Repr, DecidableEq

/-- The value produced by `JSON.parse` on the model text, as inspected by
`handleLogMeal`: the handler checks `analysis && analysis.meal_summary &&
analysis.food_items`, so each field is `none` when it is absent or falsy
(e.g. `null`). -/
structure ParsedAnalysis where
  meal_summary : Option MealSummary
  food_items : Option (List FoodItem)
deriving Repr, DecidableEq

/-- The analysis stored in a logged meal.  `handleLogMeal` only pushes an
entry after checking that both fields are present, so here they are not
optional. -/
structure NutritionAnalysis where
  meal_summary : MealSummary
  food_items : List FoodItem
deriving Repr, DecidableEq

/-- An element of `dailyLog`: `{ description, analysis }`. -/
structure LoggedMeal where
  description : String
  analysis : NutritionAnalysis
deriving Repr, DecidableEq

/-- The accumulator of the `reduce` in `updateDashboard`. -/
structure Totals where
  calories : ℚ
  protein : ℚ
  carbs : ℚ
  fat : ℚ
deriving Repr, DecidableEq

/-- JS `x || 0` on a possibly-missing numeric field: absent, `undefined`,
NaN (all modelled by `none`) and `0` itself coerce to `0`. -/
def orZero (x : Option ℚ) : ℚ := x.getD 0

/-- The accumulating step of the `reduce` in `updateDashboard`
(script.js lines 160-164): `acc.calories += ... || 0` and so on. -/
def addSummary (acc : Totals) (meal : LoggedMeal) : Totals :=
  { calories := acc.calories + orZero meal.analysis.meal_summary.total_calories
    protein := acc.protein + orZero meal.analysis.meal_summary.total_protein_g
    carbs := acc.carbs + orZero meal.analysis.meal_summary.total_carbs_g
    fat := acc.fat + orZero meal.analysis.meal_summary.total_fat_g }

/-- The `reduce` in `updateDashboard` (script.js lines 159-165): field-wise
accumulation of `meal.analysis.meal_summary.total_* || 0` over `dailyLog`,
starting from all-zero totals. -/
def computeTotals (log : List LoggedMeal) : Totals :=
  log.foldl addSummary ⟨0, 0, 0, 0⟩

/-- `dailyLog.splice(i, 1)` as performed by `handleRemoveMeal`
(script.js line 239).  JS `splice` never throws: a negative start is taken
relative to the end and clamped at 0, a start past the end is clamped to
the length (removing nothing). -/
def removeMeal (log : List LoggedMeal) (i : Int) : List LoggedMeal :=
  let start : Nat :=
    if i < 0 then ((log.length : Int) + i).toNat else min i.toNat log.length
  log.take start ++ log.drop (start + 1)

/-- The ledger mutations reachable from the event handlers:
`dailyLog.push({description, analysis})` in `handleLogMeal`,
`dailyLog.splice(index, 1)` in `handleRemoveMeal`, and `dailyLog = []`
in `handleClearLog`. -/
inductive LedgerOp where
  | addMeal (m : LoggedMeal)
  | removeMealAt (i : Int)
  | clear
deriving Repr, DecidableEq

/-- Effect of one ledger mutation on `dailyLog`. -/
def applyOp (log : List LoggedMeal) : LedgerOp → List LoggedMeal
  | .addMeal m => log ++ [m]
  | .removeMealAt i => removeMeal log i
  | .clear => []

/-- Effect of a sequence of ledger mutations, run left to right. -/
def applyOps (log : List LoggedMeal) (ops : List LedgerOp) : List LoggedMeal :=
  ops.foldl applyOp log

/-- Field-wise sums over the summaries of the meals in a log, written as
plain list sums (the specification's reading of `AggregateTotals`). -/
def sumTotals (log : List LoggedMeal) : Totals :=
  { calories := (log.map (fun m => orZero m.analysis.meal_summary.total_calories)).sum
    protein := (log.map (fun m => orZero m.analysis.meal_summary.total_protein_g)).sum
    carbs := (log.map (fun m => orZero m.analysis.meal_summary.total_carbs_g)).sum
    fat := (log.map (fun m => orZero m.analysis.meal_summary.total_fat_g)).sum }

/-- The progress data computed by `updateDashboard` (script.js lines
172-183): `progressPercentage` and the over-goal colour switch. -/
structure Progress where
  percent : ℚ
  overGoal : Bool
deriving Repr, DecidableEq

/-- `updateDashboard`'s progress computation:
`calorieGoal > 0 ? Math.min((totals.calories / calorieGoal) * 100, 100) : 0`
and the red-bar condition `totals.calories > calorieGoal`. -/
def computeProgress (log : List LoggedMeal) (calorieGoal : Int) : Progress :=
  let totals := computeTotals log
  { percent :=
      if 0 < calorieGoal then min (totals.calories / (calorieGoal : ℚ) * 100) 100 else 0
    overGoal := decide ((calorieGoal : ℚ) < totals.calories) }

/- ### The Analysis Client (`getNutritionalInfo`) -/

/-- A simulated `fetch` response: its HTTP status, and the text payload
`result.candidates[0].content.parts[0].text` of its JSON body (`none`
when the envelope lacks that nested field). -/
structure HttpResponse where
  status : Nat
  text : Option String
deriving Repr, DecidableEq

/-- `response.ok`: the status lies in the range [200, 300). -/
def respOk (r : HttpResponse) : Bool := 200 ≤ r.status && r.status < 300

/-- The retry condition at script.js line 88:
`response.status === 429 || response.status >= 500`. -/
def isTransient (r : HttpResponse) : Bool := r.status == 429 || 500 ≤ r.status

/-- The failure cases of the analysis pipeline, named as in the spec's
error taxonomy; each corresponds to one `throw` in `getNutritionalInfo`:
`ClientRejected` to line 95, `ExhaustedRetries` to line 99,
`MalformedEnvelope` to line 110, `MalformedPayload` to a `JSON.parse`
exception at line 107. -/
inductive AnalysisError where
  | ClientRejected (status : Nat)
  | ExhaustedRetries
  | MalformedEnvelope
  | MalformedPayload
deriving Repr, DecidableEq

/-- Outcome of the retry while-loop: either the response it exited with
via `break` (`response.ok`), or a thrown error. -/
inductive RetryResult where
  | success (r : HttpResponse)
  | failure (e : AnalysisError)
deriving Repr, DecidableEq

/-- A run of the retry while-loop: its outcome, the number of fetches
performed (`attempts`) and the number of `setTimeout` backoff delays
awaited (`delays`). -/
structure RetryTrace where
  result : RetryResult
  attempts : Nat
  delays : Nat
deriving Repr, DecidableEq

/-- `maxAttempts` at script.js line 76. -/
def maxAttempts : Nat := 5

/-- The while-loop of `getNutritionalInfo` (script.js lines 77-100),
recursing on the remaining budget `maxAttempts - attempt`.  `fetchAt k`
is the response of the fetch performed when `attempt = k`; `attempt` and
`delays` count the fetches and delays so far.  An ok response breaks out
with success; a transient failure awaits a backoff delay, increments
`attempt` and iterates; any other response throws immediately.  When the
budget is exhausted, the post-loop check `if (!response.ok)` throws the
exhausted-retries error. -/
def retryLoop (fetchAt : Nat → HttpResponse) :
    Nat → Nat → Nat → RetryTrace
  | 0, attempt, delays => ⟨.failure .ExhaustedRetries, attempt, delays⟩
  | remaining + 1, attempt, delays =>
      let r := fetchAt attempt
      if respOk r then ⟨.success r, attempt + 1, delays⟩
      else if isTransient r then retryLoop fetchAt remaining (attempt + 1) (delays + 1)
      else ⟨.failure (.ClientRejected r.status), attempt + 1, delays⟩

/-- Result of a full `getNutritionalInfo` call. -/
inductive AnalysisResult where
  | ok (a : ParsedAnalysis)
  | error (e : AnalysisError)
deriving Repr, DecidableEq

/-- A full `getNutritionalInfo` call together with its fetch and delay
counts. -/
structure AnalysisTrace where
  result : AnalysisResult
  attempts : Nat
  delays : Nat
deriving Repr, DecidableEq

/-- `getNutritionalInfo` (script.js lines 59-116), with `fetch` abstracted
as the response per attempt index and `JSON.parse` abstracted as
`parseJson` (`none` models a parse exception).  After the retry loop
succeeds, the nested text payload is extracted (line 106) and parsed
(line 107); a missing payload or a parse failure throws with no further
retries. -/
def getNutritionalInfo (fetchAt : Nat → HttpResponse)
    (parseJson : String → Option ParsedAnalysis) : AnalysisTrace :=
  let t := retryLoop fetchAt maxAttempts 0 0
  match t.result with
  | .failure e => ⟨.error e, t.attempts, t.delays⟩
  | .success r =>
      match r.text with
      | none => ⟨.error .MalformedEnvelope, t.attempts, t.delays⟩
      | some s =>
          match parseJson s with
          | none => ⟨.error .MalformedPayload, t.attempts, t.delays⟩
          | some a => ⟨.ok a, t.attempts, t.delays⟩

/-- The response sequence of the recovery scenario: 429, then 500, then
a successful 200 whose payload is `s`. -/
def recoverySeq (s : String) : Nat → HttpResponse :=
  fun k => if k = 0 then ⟨429, none⟩ else if k = 1 then ⟨500, none⟩ else ⟨200, some s⟩

/- ### `parseInt`, trimming, and the remaining handlers -/

/-- The common whitespace characters skipped by JS `trim` and
`parseInt`. -/
def isJsWhitespace (c : Char) : Bool :=
  c = ' ' || c = '\t' || c = '\n' || c = '\r'

/-- JS `String.prototype.trim`: strip leading and trailing whitespace
(modelled over the character list so that it is structurally
computable). -/
def trimString (s : String) : String :=
  ⟨((s.data.dropWhile isJsWhitespace).reverse.dropWhile isJsWhitespace).reverse⟩

/-- Value of the longest leading run of decimal digits, `none` when there
is no digit (the NaN case of `parseInt`). -/
def parseDigits (cs : List Char) : Option Nat :=
  let ds := cs.takeWhile (fun c => '0' ≤ c && c ≤ '9')
  if ds.isEmpty then none
  else some (ds.foldl (fun n c => 10 * n + (c.toNat - 48)) 0)

/-- JS `parseInt(s, 10)`: skip leading whitespace, read an optional sign,
then the longest run of decimal digits; `none` models NaN (no digits).
Trailing characters are ignored. -/
def parseIntBase10 (s : String) : Option Int :=
  let cs := s.data.dropWhile isJsWhitespace
  match cs with
  | '-' :: rest => (parseDigits rest).map (fun n => -(n : Int))
  | '+' :: rest => (parseDigits rest).map (fun n => (n : Int))
  | _ => (parseDigits cs).map (fun n => (n : Int))

/-- `handleGoalChange` (script.js lines 224-228):
`calorieGoal = parseInt(event.target.value, 10) || 0`.  `|| 0` replaces
the falsy results NaN and `0` by `0`; any other integer, negative ones
included, passes through. -/
def handleGoalChange (value : String) : Int :=
  match parseIntBase10 value with
  | none => 0
  | some v => if v = 0 then 0 else v

/-- `handleClearLog` (script.js lines 230-235): the `dailyLog = []` reset
runs only when the user confirms the dialog; the ledger mutation itself
(`applyOp _ .clear`) is unconditional once invoked. -/
def handleClearLog (confirmed : Bool) (log : List LoggedMeal) : List LoggedMeal :=
  if confirmed then applyOp log .clear else log

/-- `handleLogMeal` (script.js lines 192-222) as a function of the
current log, the raw input-field value and the analysis outcome
(`analyze` abstracts `getNutritionalInfo`'s result for a given
description).  The input is trimmed; an empty trimmed description shows
an error and returns before any network call; an analysis error is
caught and the log is untouched; on success, an entry
`{description, analysis}` is pushed exactly when the parsed value has
both `meal_summary` and `food_items` present (truthy). -/
def handleLogMeal (log : List LoggedMeal) (rawInput : String)
    (analyze : String → AnalysisResult) : List LoggedMeal :=
  let description := trimString rawInput
  if description = "" then log
  else
    match analyze description with
    | .error _ => log
    | .ok a =>
        match a.meal_summary, a.food_items with
        | some s, some items => log ++ [⟨description, ⟨s, items⟩⟩]
        | some _, none => log
        | none, _ => log

/-- A sample logged meal used to instantiate the general theorems. -/
def sampleMeal : LoggedMeal := ⟨"2 eggs", ⟨⟨some 140, some 12, some 1, some 10⟩, []⟩⟩

/-- A logged meal of 2500 kcal, used against the default 2000 goal. -/
def overGoalMeal : LoggedMeal := ⟨"big meal", ⟨⟨some 2500, some 10, some 10, some 10⟩, []⟩⟩

/-- A logged meal whose summary lacks all four numeric fields. -/
def mysteryMeal : LoggedMeal := ⟨"mystery", ⟨⟨none, none, none, none⟩, []⟩⟩

end NutritionApp

namespace NutritionApp

/-- `computeTotals` (a left fold with an accumulator) agrees with the
plain field-wise list sums, for any starting accumulator. -/
theorem computeTotals_foldl_eq (log : List LoggedMeal) (a : Totals) :
    log.foldl addSummary a =
    ⟨a.calories + (sumTotals log).calories, a.protein + (sumTotals log).protein,
      a.carbs + (sumTotals log).carbs, a.fat + (sumTotals log).fat⟩ := by
  induction log generalizing a with
  | nil => simp [sumTotals]
  | cons m rest ih =>
      simp only [List.foldl_cons, ih, sumTotals, List.map_cons, List.sum_cons, addSummary]
      congr 1 <;> ring

/-- `computeTotals` is exactly the field-wise sum over the current log. -/
theorem computeTotals_eq_sumTotals (log : List LoggedMeal) :
    computeTotals log = sumTotals log := by
  have h := computeTotals_foldl_eq log ⟨0, 0, 0, 0⟩
  simpa [computeTotals] using h

/-- C1: after any sequence of ledger operations (addMeal, removeMeal,
clear) starting from the empty log, `computeTotals` returns exactly the
field-wise sum of calories, protein, carbs and fat over the summaries of
the meals currently present: removed and cleared meals contribute
nothing, because the totals are recomputed from the current log. -/
theorem totals_match_current_log (ops : List LedgerOp) :
    computeTotals (applyOps [] ops) = sumTotals (applyOps [] ops) :=
  computeTotals_eq_sumTotals (applyOps [] ops)

/-- Unfolding one iteration of the retry while-loop. -/
theorem retryLoop_succ (f : Nat → HttpResponse) (n attempt delays : Nat) :
    retryLoop f (n + 1) attempt delays =
      if respOk (f attempt) then ⟨.success (f attempt), attempt + 1, delays⟩
      else if isTransient (f attempt) then retryLoop f n (attempt + 1) (delays + 1)
      else ⟨.failure (.ClientRejected (f attempt).status), attempt + 1, delays⟩ := rfl

/-- When every response within the remaining budget is a non-ok transient
failure, the loop exhausts the budget, performing one fetch and one delay
per remaining attempt. -/
theorem retryLoop_all_transient (f : Nat → HttpResponse) :
    ∀ remaining attempt delays,
      (∀ k, attempt ≤ k → k < attempt + remaining →
        respOk (f k) = false ∧ isTransient (f k) = true) →
      retryLoop f remaining attempt delays =
        ⟨.failure .ExhaustedRetries, attempt + remaining, delays + remaining⟩ := by
  intro remaining
  induction remaining with
  | zero => intro attempt delays _; simp [retryLoop]
  | succ n ih =>
      intro attempt delays h
      have hhead := h attempt (le_refl _) (by omega)
      rw [retryLoop_succ, hhead.1, hhead.2]
      simp only [Bool.false_eq_true, if_false, if_true]
      rw [ih (attempt + 1) (delays + 1) (fun k hk1 hk2 => h k (by omega) (by omega))]
      congr 1 <;> omega

/-- C2 counterexample: with every response a 503, the client does fail
with the exhausted-retries error after exactly 5 attempts, but it
performs 5 backoff delays — one also follows the final failed attempt —
not 4 as claimed. -/
theorem exhausted_retries_delay_count_counterexample :
    (getNutritionalInfo (fun _ => ⟨503, none⟩) (fun _ => none)).result
        = .error .ExhaustedRetries ∧
    (getNutritionalInfo (fun _ => ⟨503, none⟩) (fun _ => none)).attempts = 5 ∧
    ¬ (getNutritionalInfo (fun _ => ⟨503, none⟩) (fun _ => none)).delays = 4 := by
  refine ⟨rfl, rfl, ?_⟩
  intro h
  simp [getNutritionalInfo, maxAttempts, retryLoop, respOk, isTransient] at h

/-- C2 (amended): if every response seen by the retry loop is a
transient-retryable failure (e.g. five consecutive 503 responses), the
Analysis Client fails with the exhausted-retries error after exactly 5
attempts and exactly 5 backoff delays — the code also awaits a backoff
delay after the final failed attempt. -/
theorem exhausted_retries_five_attempts_five_delays
    (fetchAt : Nat → HttpResponse) (parseJson : String → Option ParsedAnalysis)
    (h : ∀ k, k < 5 → respOk (fetchAt k) = false ∧ isTransient (fetchAt k) = true) :
    getNutritionalInfo fetchAt parseJson = ⟨.error .ExhaustedRetries, 5, 5⟩ := by
  have hl := retryLoop_all_transient fetchAt 5 0 0
    (fun k hk1 hk2 => h k (by omega))
  simp [getNutritionalInfo, maxAttempts, hl]

/-- Witness for C2 (amended) at five consecutive 503 responses. -/
theorem exhausted_retries_five_attempts_five_delays_witness :
    getNutritionalInfo (fun _ => ⟨503, none⟩) (fun _ => none) =
      ⟨.error .ExhaustedRetries, 5, 5⟩ :=
  exhausted_retries_five_attempts_five_delays _ _ (fun _ _ => ⟨rfl, rfl⟩)

/-- C4: on the response sequence [429, 500, 200], the client performs
exactly 2 backoff delays (and 3 attempts) before succeeding, and returns
the breakdown parsed from the third response's text payload. -/
theorem retry_recovers_on_third_response
    (s : String) (parseJson : String → Option ParsedAnalysis) (a : ParsedAnalysis)
    (hp : parseJson s = some a) :
    getNutritionalInfo (recoverySeq s) parseJson = ⟨.ok a, 3, 2⟩ := by
  have hl : retryLoop (recoverySeq s) maxAttempts 0 0 =
      ⟨.success ⟨200, some s⟩, 3, 2⟩ := rfl
  simp [getNutritionalInfo, hl, hp]

/-- Witness for C4 with a concrete payload and parse function. -/
theorem retry_recovers_on_third_response_witness :
    getNutritionalInfo (recoverySeq "x")
        (fun _ => some ⟨some ⟨some 1, some 2, some 3, some 4⟩, some []⟩) =
      ⟨.ok ⟨some ⟨some 1, some 2, some 3, some 4⟩, some []⟩, 3, 2⟩ :=
  retry_recovers_on_third_response "x" _ _ rfl

/-- C5: a first response that is not ok, not a 429 and not a server-side
(>= 500) fault makes the client fail immediately with the terminal
client-rejected error: one attempt, no delay, no retry. -/
theorem terminal_status_fails_immediately
    (fetchAt : Nat → HttpResponse) (parseJson : String → Option ParsedAnalysis)
    (hok : respOk (fetchAt 0) = false) (h429 : (fetchAt 0).status ≠ 429)
    (h500 : (fetchAt 0).status < 500) :
    getNutritionalInfo fetchAt parseJson =
      ⟨.error (.ClientRejected (fetchAt 0).status), 1, 0⟩ := by
  have ht : isTransient (fetchAt 0) = false := by
    simp [isTransient, h429, Nat.not_le.mpr h500]
  have hl : retryLoop fetchAt maxAttempts 0 0 =
      ⟨.failure (.ClientRejected (fetchAt 0).status), 1, 0⟩ := by
    rw [show maxAttempts = 4 + 1 from rfl, retryLoop_succ, hok, ht]
    simp
  simp [getNutritionalInfo, hl]

/-- Witness for C5 at a 404 first response. -/
theorem terminal_status_fails_immediately_witness :
    getNutritionalInfo (fun _ => ⟨404, none⟩) (fun _ => none) =
      ⟨.error (.ClientRejected 404), 1, 0⟩ :=
  terminal_status_fails_immediately _ _ rfl (by decide) (by decide)

/-- C3 counterexample: `splice` interprets a negative index relative to
the end of the array, so removal at the out-of-range index -1 on a
one-element log deletes that element instead of failing with an
index-out-of-range error and leaving the log unchanged. -/
theorem remove_negative_index_counterexample :
    removeMeal [sampleMeal] (-1) = [] ∧
    removeMeal [sampleMeal] (-1) ≠ [sampleMeal] := by
  decide

/-- C3 (amended): `removeMeal` never raises an error.  For every
in-range index the meal at that index is removed and all subsequent
entries shift down one position, preserving order; for every index at or
past the end the log is returned unchanged, silently; a negative index
follows `splice` semantics and acts like the index
`max(length + index, 0)`. -/
theorem removeMeal_splice_semantics (log : List LoggedMeal) :
    (∀ i : Nat, i < log.length →
      (removeMeal log (i : Int)).length = log.length - 1 ∧
      (∀ j, j < i → (removeMeal log (i : Int))[j]? = log[j]?) ∧
      (∀ j, i ≤ j → (removeMeal log (i : Int))[j]? = log[j + 1]?)) ∧
    (∀ i : Int, (log.length : Int) ≤ i → removeMeal log i = log) ∧
    (∀ i : Int, i < 0 →
      removeMeal log i = removeMeal log (max ((log.length : Int) + i) 0)) := by
  refine ⟨?_, ?_, ?_⟩
  · intro i hi
    have hrm : removeMeal log (i : Int) = log.take i ++ log.drop (i + 1) := by
      simp only [removeMeal]
      rw [if_neg (by omega : ¬ ((i : Int) < 0))]
      have h2 : min (i : Int).toNat log.length = i := by omega
      rw [h2]
    refine ⟨?_, ?_, ?_⟩
    · rw [hrm]; simp [List.length_take, List.length_drop]; omega
    · intro j hj
      have hlt : j < (log.take i).length := by simp [List.length_take]; omega
      rw [hrm, List.getElem?_append, if_pos hlt, List.getElem?_take, if_pos hj]
    · intro j hj
      have hge : (log.take i).length ≤ j := by simp [List.length_take]; omega
      rw [hrm, List.getElem?_append_right hge, List.getElem?_drop]
      congr 1
      simp only [List.length_take]
      omega
  · intro i hi
    simp only [removeMeal]
    rw [if_neg (by omega : ¬ (i < 0))]
    have h2 : min i.toNat log.length = log.length := by omega
    rw [h2, List.take_length, List.drop_eq_nil_of_le (by omega), List.append_nil]
  · intro i hi
    simp only [removeMeal]
    rw [if_pos hi, if_neg (by omega : ¬ (max ((log.length : Int) + i) 0 < 0))]
    have h2 : min (max ((log.length : Int) + i) 0).toNat log.length =
        ((log.length : Int) + i).toNat := by omega
    rw [h2]

/-- Witness for C3 (amended): an in-range removal shifts the next entry
down, and an index past the end leaves the log unchanged. -/
theorem removeMeal_splice_semantics_witness :
    (removeMeal [sampleMeal, overGoalMeal] ((0 : Nat) : Int))[0]? =
      [sampleMeal, overGoalMeal][0 + 1]? ∧
    removeMeal [sampleMeal, overGoalMeal] (5 : Int) = [sampleMeal, overGoalMeal] :=
  ⟨((removeMeal_splice_semantics [sampleMeal, overGoalMeal]).1 0 (by decide)).2.2
      0 (by decide),
    (removeMeal_splice_semantics [sampleMeal, overGoalMeal]).2.1 5 (by decide)⟩

/-- C6 counterexample: the input "-3" parses to the negative integer -3,
which is truthy, so `parseInt(value, 10) || 0` sets the goal to -3 — a
negative value, contradicting the claim that inputs not interpretable as
a non-negative integer coerce to 0 and that the goal is never
negative. -/
theorem goal_negative_input_counterexample :
    handleGoalChange "-3" = -3 ∧ handleGoalChange "-3" < 0 := by
  decide

/-- C6 (amended): `handleGoalChange` never errors; it sets the goal to
the integer `parseInt(input, 10)` produces when there is one — negative
values pass through unchanged — and to 0 otherwise (non-numeric input,
for which `parseInt` gives NaN, or an explicit 0, both falsy under
`|| 0`). -/
theorem goal_change_follows_parse (value : String) :
    handleGoalChange value = (parseIntBase10 value).getD 0 := by
  unfold handleGoalChange
  cases h : parseIntBase10 value with
  | none => rfl
  | some v =>
      by_cases hv : v = 0
      · simp [hv]
      · simp [hv]

/-- C7: progress percent is min(100, 100·calories/goal) for a positive
goal and 0 for a zero goal, the over-goal flag is exactly
`calories > goal`, and one 2500-kcal meal against a goal of 2000 gives
percent 100 with the flag set. -/
theorem computeProgress_spec (log : List LoggedMeal) (goal : Int) :
    (0 < goal → (computeProgress log goal).percent =
      min 100 (100 * (computeTotals log).calories / (goal : ℚ))) ∧
    (goal = 0 → (computeProgress log goal).percent = 0) ∧
    ((computeProgress log goal).overGoal = true ↔
      (goal : ℚ) < (computeTotals log).calories) ∧
    computeProgress [overGoalMeal] 2000 = ⟨100, true⟩ := by
  refine ⟨?_, ?_, ?_, ?_⟩
  · intro hg
    simp only [computeProgress, if_pos hg]
    rw [min_comm]
    congr 1
    ring
  · intro hg
    simp [computeProgress, hg]
  · simp [computeProgress]
  · simp only [computeProgress, Progress.mk.injEq]
    constructor
    · norm_num [computeTotals, addSummary, orZero, overGoalMeal, min_def]
    · norm_num [computeTotals, addSummary, orZero, overGoalMeal]

/-- Witness for C7 at a positive and at a zero goal. -/
theorem computeProgress_spec_witness :
    (computeProgress [overGoalMeal] 2000).percent =
      min 100 (100 * (computeTotals [overGoalMeal]).calories / ((2000 : Int) : ℚ)) ∧
    (computeProgress [overGoalMeal] 0).percent = 0 :=
  ⟨(computeProgress_spec [overGoalMeal] 2000).1 (by decide),
    (computeProgress_spec [overGoalMeal] 0).2.1 rfl⟩

/-- C8: the clear operation empties the meal sequence unconditionally —
it has no failure path — and totals computed afterwards are all zero
regardless of the prior content. -/
theorem clear_empties_and_zeroes_totals (log : List LoggedMeal) :
    applyOp log .clear = [] ∧
    computeTotals (applyOp log .clear) = ⟨0, 0, 0, 0⟩ :=
  ⟨rfl, rfl⟩

/-- C9: the totals computation is total over incomplete analyses — a
logged meal whose summary lacks one of the four numeric fields (absent,
undefined or NaN, all falsy under `|| 0`) contributes 0 to that field of
the totals, wherever it sits in the log, so the aggregates are always
well-defined numbers. -/
theorem missing_fields_contribute_zero (l1 l2 : List LoggedMeal) (m : LoggedMeal) :
    (m.analysis.meal_summary.total_calories = none →
      (computeTotals (l1 ++ m :: l2)).calories = (computeTotals (l1 ++ l2)).calories) ∧
    (m.analysis.meal_summary.total_protein_g = none →
      (computeTotals (l1 ++ m :: l2)).protein = (computeTotals (l1 ++ l2)).protein) ∧
    (m.analysis.meal_summary.total_carbs_g = none →
      (computeTotals (l1 ++ m :: l2)).carbs = (computeTotals (l1 ++ l2)).carbs) ∧
    (m.analysis.meal_summary.total_fat_g = none →
      (computeTotals (l1 ++ m :: l2)).fat = (computeTotals (l1 ++ l2)).fat) := by
  refine ⟨?_, ?_, ?_, ?_⟩ <;>
    · intro h
      simp [computeTotals_eq_sumTotals, sumTotals, h, orZero]

/-- Witness for C9: a meal with no numeric fields at all adds nothing to
the calorie total. -/
theorem missing_fields_contribute_zero_witness :
    (computeTotals ([] ++ mysteryMeal :: [])).calories =
      (computeTotals ([] ++ [])).calories :=
  (missing_fields_contribute_zero [] [] mysteryMeal).1 rfl

/-- C10: the log-meal handler appends a new entry exactly when the
trimmed description is non-empty and the analysis succeeds with a value
having both `meal_summary` and `food_items` present; an empty trimmed
description (which causes no network call), an analysis error, or a
missing field all leave the log unchanged. -/
theorem handleLogMeal_appends_iff (log : List LoggedMeal) (rawInput : String)
    (analyze : String → AnalysisResult) :
    (∀ s items, trimString rawInput ≠ "" →
      analyze (trimString rawInput) = .ok ⟨some s, some items⟩ →
      handleLogMeal log rawInput analyze = log ++ [⟨trimString rawInput, ⟨s, items⟩⟩]) ∧
    (handleLogMeal log rawInput analyze ≠ log →
      trimString rawInput ≠ "" ∧
      ∃ s items, analyze (trimString rawInput) = .ok ⟨some s, some items⟩) ∧
    (trimString rawInput = "" → handleLogMeal log rawInput analyze = log) ∧
    (∀ e, analyze (trimString rawInput) = .error e →
      handleLogMeal log rawInput analyze = log) ∧
    (∀ a, analyze (trimString rawInput) = .ok a →
      (a.meal_summary = none ∨ a.food_items = none) →
      handleLogMeal log rawInput analyze = log) := by
  refine ⟨?_, ?_, ?_, ?_, ?_⟩
  · intro s items hne hok
    simp [handleLogMeal, hne, hok]
  · intro hchanged
    by_cases hne : trimString rawInput = ""
    · exact absurd (by simp [handleLogMeal, hne]) hchanged
    · refine ⟨hne, ?_⟩
      cases hok : analyze (trimString rawInput) with
      | error e => exact absurd (by simp [handleLogMeal, hne, hok]) hchanged
      | ok a =>
          cases hs : a.meal_summary with
          | none => exact absurd (by simp [handleLogMeal, hne, hok, hs]) hchanged
          | some s =>
              cases hitems : a.food_items with
              | none => exact absurd (by simp [handleLogMeal, hne, hok, hs, hitems]) hchanged
              | some items =>
                  exact ⟨s, items, by cases a; simp_all⟩
  · intro hne
    simp [handleLogMeal, hne]
  · intro e hok
    by_cases hne : trimString rawInput = ""
    · simp [handleLogMeal, hne]
    · simp [handleLogMeal, hne, hok]
  · intro a hok hmiss
    by_cases hne : trimString rawInput = ""
    · simp [handleLogMeal, hne]
    · cases hmiss with
      | inl hs => simp [handleLogMeal, hne, hok, hs]
      | inr hitems =>
          cases hs : a.meal_summary with
          | none => simp [handleLogMeal, hne, hok, hs]
          | some s => simp [handleLogMeal, hne, hok, hs, hitems]

/-- Witness for C10: a successful analysis with both fields present
appends the trimmed entry. -/
theorem handleLogMeal_appends_iff_witness :
    handleLogMeal [] " 2 eggs "
        (fun _ => .ok ⟨some ⟨some 140, some 12, some 1, some 10⟩, some []⟩) =
      [] ++ [⟨trimString " 2 eggs ", ⟨⟨some 140, some 12, some 1, some 10⟩, []⟩⟩] :=
  (handleLogMeal_appends_iff [] " 2 eggs " _).1 _ _ (by decide) rfl

end NutritionApp
